import Mathlib

/-!
Shallow embedding of the capacity-block-manager reconciliation core
(`src/extender/index.js`) and the relevant piece of the CRUD API
(`src/api/index.js`).

Modelling conventions:
* A JS `Date` value is `Option Int`: `some t` is a valid date whose time
  value is `t` epoch-milliseconds; `none` is an Invalid Date (NaN time
  value).  JS relational comparison on dates coerces to the time value and
  any comparison against NaN is `false`.
* The Lambda runs with TZ=UTC, so `d.setDate(d.getDate() ± n)` shifts the
  time value by exactly `n * 86400000` ms; we model that directly.
  `toISOString` on a valid date round-trips through parsing, so the
  success write stores the instant itself; on an Invalid Date it throws
  `"Invalid time value"`.
* Record attributes that the code tests for JS truthiness are `Option`s:
  `none` models an absent (or empty-string, hence falsy) attribute.
  `end_time` is `Option (Option Int)`: `none` = absent/falsy raw string,
  `some none` = present but does not parse (`new Date(s)` is Invalid),
  `some (some t)` = parses to instant `t`.
* External collaborators (DynamoDB UpdateItem, EC2 describe/purchase, SNS
  publish) are fields of an `Env`, returning `Except String α` where the
  `String` is the thrown error's `.message`.  Every call the code issues
  is also recorded in an ordered `Action` trace, and the persisted state
  is obtained by folding the successful `UpdateItem` actions over the
  record.
-/

namespace CBM

/-- JS `Date`: `some t` = valid date with time value `t` (epoch ms),
`none` = Invalid Date (NaN time value). -/
abbrev JSDate := Option Int

/-- Milliseconds in a calendar day (UTC, no DST). -/
def dayMs : Int := 86400000

/-- JS `a < b` on `Date`s: coerces to time values; comparisons involving
NaN are `false`. -/
def jsLt : JSDate → JSDate → Bool
  | some a, some b => a < b
  | _, _ => false

/-- `d.setDate(d.getDate() + n)` where `n` may be NaN (`none`):
shifts a valid date by `n` calendar days, yields Invalid Date if either
the date or `n` is invalid. -/
def setDatePlus : JSDate → Option Int → JSDate
  | some t, some n => some (t + n * dayMs)
  | _, _ => none

/-- JS truthiness of an optional string attribute (`undefined` and `""`
are falsy). -/
def truthyStr : Option String → Bool
  | none => false
  | some s => s ≠ ""

/-- A reservation record as stored in DynamoDB (`unmarshall`ed item).
`end_time`: see module docstring. `errorMessage` models the `error`
attribute. -/
structure Item where
  PK : String
  capacity_block_id : Option String
  end_time : Option (Option Int)
  extension_lookahead_days : Option Int
  extend_by_days : Option Int
  require_approval : Bool
  approval : Bool
  status : Option String
  errorMessage : Option String
  name : Option String
  region : Option String
  deriving Repr, DecidableEq

/-- The DynamoDB `UpdateItemCommand`s issued by the system, one
constructor per distinct `UpdateExpression` in the source. -/
inductive UpdateReq
  /-- `updateStatus` without message: `SET #status = :s REMOVE #error`. -/
  | setStatusRemoveError (pk status : String)
  /-- `updateStatus` with truthy message: `SET #status = :s, #error = :e`. -/
  | setStatusSetError (pk status err : String)
  /-- extender auto-approve: `SET #approval = :a` with `:a = true`. -/
  | setApprovalTrue (pk : String)
  /-- extender success write:
  `SET #status = :s, end_time = :t, #approval = :a REMOVE #error`
  with `:s = EXTENDED`, `:t = newEndTime.toISOString()`, `:a = false`. -/
  | extendedWrite (pk : String) (newEndTime : Int)
  /-- api PATCH "approve": `SET #approval = :false REMOVE #error`
  (the value bound to `:false` is `true`). -/
  | approveClearsError (pk : String)
  deriving Repr, DecidableEq

/-- The external calls the extender makes, in order. -/
inductive Action
  | updateItem (req : UpdateReq)
  | describeOfferings (capacityReservationId : String) (durationHours : Option Int)
  | purchase (capacityReservationId : String) (offeringId : String)
  | publish (topicArn subject message : String)
  deriving Repr, DecidableEq

/-- External collaborators; each returns `Except msg result` where `msg`
is the rejection's `.message`. `describe` returns the list of
`CapacityBlockExtensionOfferingId`s. -/
structure Env where
  approvalTopicArn : Option String
  update : UpdateReq → Except String Unit
  describe : String → Option Int → Except String (List String)
  purchase : String → String → Except String Unit
  publish : String → String → String → Except String Unit

/-- `APPROVAL_WORKFLOW_ENABLED = !!APPROVAL_TOPIC_ARN`. -/
def Env.approvalWorkflowEnabled (env : Env) : Bool :=
  env.approvalTopicArn.isSome

/-- `updateStatus(pk, status, errorMessage)`: picks the update expression
by JS truthiness of `errorMessage` (the default `null` and `""` are
falsy). -/
def updateStatusReq (pk status : String) (errorMessage : Option String) : UpdateReq :=
  if truthyStr errorMessage then
    .setStatusSetError pk status (errorMessage.getD "")
  else
    .setStatusRemoveError pk status

/-- Template-literal rendering of a possibly-undefined string field. -/
def jsShow (s : Option String) : String := s.getD "undefined"

/-- `item.name || item.PK`. -/
def nameOrPK (item : Item) : String :=
  if truthyStr item.name then item.name.getD "" else item.PK

/-- `sendApprovalRequest(item)`: publishes to SNS when a topic is
configured; a publish failure is caught and logged, never rethrown.
Returns the actions performed (never throws). -/
def sendApprovalRequest (env : Env) (item : Item) : List Action :=
  match env.approvalTopicArn with
  | none => []
  | some arn =>
      [Action.publish arn
        ("Approval Required: " ++ nameOrPK item)
        ("Capacity block " ++ jsShow item.capacity_block_id ++ " for " ++
          nameOrPK item ++ " in " ++ jsShow item.region ++
          " requires approval for extension.")]

/-- The `try` block of the per-item loop body in `exports.handler`.
Returns the actions performed in order, and `some msg` when a JS
exception with message `msg` escapes the block (to be caught by the
per-item `catch`). -/
def tryBody (env : Env) (now : JSDate) (item : Item) : List Action × Option String :=
  if ¬ (truthyStr item.capacity_block_id ∧ item.end_time.isSome) then
    ([], some "Missing capacity_block_id or end_time")
  else
    let cbId := item.capacity_block_id.getD ""
    let endTime : JSDate := item.end_time.getD none
    let lookaheadTime := setDatePlus endTime (item.extension_lookahead_days.map (fun d => -d))
    if jsLt now lookaheadTime then
      let req := updateStatusReq item.PK "NO_ACTION_REQUIRED" none
      match env.update req with
      | .error msg => ([.updateItem req], some msg)
      | .ok _ => ([.updateItem req], none)
    else if item.require_approval ∧ ¬ item.approval then
      let req := updateStatusReq item.PK "EXTENSION_APPROVAL_REQUIRED" none
      match env.update req with
      | .error msg => ([.updateItem req], some msg)
      | .ok _ =>
          if env.approvalWorkflowEnabled then
            (Action.updateItem req :: sendApprovalRequest env item, none)
          else
            let req2 := UpdateReq.setApprovalTrue item.PK
            match env.update req2 with
            | .error msg => ([.updateItem req, .updateItem req2], some msg)
            | .ok _ => ([.updateItem req, .updateItem req2], none)
    else
      let hours := item.extend_by_days.map (· * 24)
      match env.describe cbId hours with
      | .error msg => ([.describeOfferings cbId hours], some msg)
      | .ok offerings =>
          if offerings.isEmpty then
            ([.describeOfferings cbId hours],
             some ("No extension offerings available for " ++ cbId))
          else
            let offeringId := offerings.headD ""
            match env.purchase cbId offeringId with
            | .error msg =>
                ([.describeOfferings cbId hours, .purchase cbId offeringId], some msg)
            | .ok _ =>
                match setDatePlus endTime item.extend_by_days with
                | none =>
                    -- newEndTime is an Invalid Date: `toISOString()` throws.
                    ([.describeOfferings cbId hours, .purchase cbId offeringId],
                     some "Invalid time value")
                | some t =>
                    let req := UpdateReq.extendedWrite item.PK t
                    match env.update req with
                    | .error msg =>
                        ([.describeOfferings cbId hours, .purchase cbId offeringId,
                          .updateItem req], some msg)
                    | .ok _ =>
                        ([.describeOfferings cbId hours, .purchase cbId offeringId,
                          .updateItem req], none)

/-- One full loop iteration for one item: the `try` block plus the
`catch` that persists `ERROR` with the thrown message.  The second
component is `some msg` when an exception escapes the iteration (only
possible when the `catch` block's own `updateStatus` write rejects),
which aborts the remaining batch. -/
def processItem (env : Env) (now : JSDate) (item : Item) : List Action × Option String :=
  match tryBody env now item with
  | (acts, none) => (acts, none)
  | (acts, some msg) =>
      let req := updateStatusReq item.PK "ERROR" (some msg)
      match env.update req with
      | .ok _ => (acts ++ [.updateItem req], none)
      | .error m2 => (acts ++ [.updateItem req], some m2)

/-- The `for (const item of items)` loop of `exports.handler`: processes
items in order; an exception escaping one iteration rejects the handler
and the remaining items are not processed. -/
def runLoop (env : Env) (now : JSDate) : List Item → List Action × Option String
  | [] => ([], none)
  | item :: rest =>
      match processItem env now item with
      | (acts, some msg) => (acts, some msg)
      | (acts, none) =>
          let (acts2, e2) := runLoop env now rest
          (acts ++ acts2, e2)

/-- Effect of one `UpdateItemCommand` on a stored item (DynamoDB applies
it only to the item with the matching key). -/
def applyUpdate (req : UpdateReq) (item : Item) : Item :=
  match req with
  | .setStatusRemoveError pk s =>
      if pk = item.PK then { item with status := some s, errorMessage := none } else item
  | .setStatusSetError pk s e =>
      if pk = item.PK then { item with status := some s, errorMessage := some e } else item
  | .setApprovalTrue pk =>
      if pk = item.PK then { item with approval := true } else item
  | .extendedWrite pk t =>
      if pk = item.PK then
        { item with status := some "EXTENDED", end_time := some (some t),
                    approval := false, errorMessage := none }
      else item
  | .approveClearsError pk =>
      if pk = item.PK then { item with approval := true, errorMessage := none } else item

/-- Whether a call result is a fulfilled promise. -/
def isOkB : Except String Unit → Bool
  | .ok _ => true
  | .error _ => false

/-- Persisted image of `item` after a trace: fold the `UpdateItem` calls
that the store accepted (`env.update` fulfilled) over the item. -/
def applyActions (env : Env) (acts : List Action) (item : Item) : Item :=
  acts.foldl
    (fun it a =>
      match a with
      | .updateItem req => if isOkB (env.update req) then applyUpdate req it else it
      | _ => it)
    item

/-- Persisted image of `item` after its own loop iteration. -/
def persistedAfter (env : Env) (now : JSDate) (item : Item) : Item :=
  applyActions env (processItem env now item).1 item

/-- Trace predicate: some Capacity Provider (EC2) call occurs. -/
def hasProviderCall (acts : List Action) : Bool :=
  acts.any fun a =>
    match a with
    | .describeOfferings _ _ => true
    | .purchase _ _ => true
    | _ => false

/-- Trace predicate: a purchase call occurs. -/
def hasPurchase (acts : List Action) : Bool :=
  acts.any fun a =>
    match a with
    | .purchase _ _ => true
    | _ => false

/-- Count of SNS publish calls in a trace. -/
def publishCount (acts : List Action) : Nat :=
  (acts.filter fun a =>
    match a with
    | .publish _ _ _ => true
    | _ => false).length

/-- The `PATCH` ("approve") branch of the CRUD API handler
(`src/api/index.js`): one partial update `SET #approval = :false
REMOVE #error` with `:false = true`. -/
def apiApprove (env : Env) (pk : String) : List Action × Except String Unit :=
  ([Action.updateItem (UpdateReq.approveClearsError pk)],
   env.update (UpdateReq.approveClearsError pk))

/-- The spec's record invariant: `errorMessage` present iff
`status = ERROR`. -/
def errorInv (item : Item) : Prop :=
  item.errorMessage.isSome ↔ item.status = some "ERROR"

instance (item : Item) : Decidable (errorInv item) := by
  unfold errorInv; infer_instance

end CBM

namespace CBM

/-! ### Branch characterization lemmas -/

theorem updateStatusReq_noMsg (pk s : String) :
    updateStatusReq pk s none = .setStatusRemoveError pk s := rfl

theorem setDatePlus_some (t n : Int) :
    setDatePlus (some t) (some n) = some (t + n * dayMs) := rfl

/-- Validation branch: a record with a falsy `capacity_block_id` or absent
`end_time` throws before any external call. -/
theorem tryBody_validation (env : Env) (now : JSDate) (item : Item)
    (h : ¬ (truthyStr item.capacity_block_id = true ∧ item.end_time.isSome = true)) :
    tryBody env now item = ([], some "Missing capacity_block_id or end_time") := by
  unfold tryBody
  rw [if_pos h]

/-- No-action branch: valid fields, `now < lookaheadTime`, store accepts
the status write. -/
theorem tryBody_noAction (env : Env) (now : JSDate) (item : Item)
    (hcb : truthyStr item.capacity_block_id = true)
    (het : item.end_time.isSome = true)
    (hwin : jsLt now (setDatePlus (item.end_time.getD none)
              (item.extension_lookahead_days.map (fun d => -d))) = true)
    (hupd : env.update (UpdateReq.setStatusRemoveError item.PK "NO_ACTION_REQUIRED")
              = .ok ()) :
    tryBody env now item =
      ([.updateItem (UpdateReq.setStatusRemoveError item.PK "NO_ACTION_REQUIRED")], none) := by
  unfold tryBody
  rw [if_neg (by simp [hcb, het])]
  simp only [hwin, if_pos, updateStatusReq_noMsg, hupd]

end CBM

namespace CBM

/-- Approval branch, notifier configured: one status write then a
best-effort publish; never throws past the publish. -/
theorem tryBody_notify (env : Env) (now : JSDate) (item : Item)
    (hcb : truthyStr item.capacity_block_id = true)
    (het : item.end_time.isSome = true)
    (hwin : jsLt now (setDatePlus (item.end_time.getD none)
              (item.extension_lookahead_days.map (fun d => -d))) = false)
    (hra : item.require_approval = true) (hap : item.approval = false)
    (hwf : env.approvalWorkflowEnabled = true)
    (hupd : env.update (UpdateReq.setStatusRemoveError item.PK "EXTENSION_APPROVAL_REQUIRED")
              = .ok ()) :
    tryBody env now item =
      (Action.updateItem (UpdateReq.setStatusRemoveError item.PK "EXTENSION_APPROVAL_REQUIRED")
        :: sendApprovalRequest env item, none) := by
  unfold tryBody
  rw [if_neg (by simp [hcb, het])]
  rw [if_neg (by simp [hwin])]
  rw [if_pos (by simp [hra, hap])]
  simp only [updateStatusReq_noMsg, hupd, hwf, if_true]

/-- Approval branch, no notifier: status write then the auto-approve
write. -/
theorem tryBody_autoApprove (env : Env) (now : JSDate) (item : Item)
    (hcb : truthyStr item.capacity_block_id = true)
    (het : item.end_time.isSome = true)
    (hwin : jsLt now (setDatePlus (item.end_time.getD none)
              (item.extension_lookahead_days.map (fun d => -d))) = false)
    (hra : item.require_approval = true) (hap : item.approval = false)
    (hwf : env.approvalWorkflowEnabled = false)
    (hupd1 : env.update (UpdateReq.setStatusRemoveError item.PK "EXTENSION_APPROVAL_REQUIRED")
              = .ok ())
    (hupd2 : env.update (UpdateReq.setApprovalTrue item.PK) = .ok ()) :
    tryBody env now item =
      ([Action.updateItem (UpdateReq.setStatusRemoveError item.PK "EXTENSION_APPROVAL_REQUIRED"),
        Action.updateItem (UpdateReq.setApprovalTrue item.PK)], none) := by
  unfold tryBody
  rw [if_neg (by simp [hcb, het])]
  rw [if_neg (by simp [hwin])]
  rw [if_pos (by simp [hra, hap])]
  simp only [updateStatusReq_noMsg, hupd1, hwf, hupd2, Bool.false_eq_true, if_false]

/-- Extension branch, happy path: describe, purchase, success write. -/
theorem tryBody_extendOk (env : Env) (now : JSDate) (item : Item)
    (hcb : truthyStr item.capacity_block_id = true)
    (hwin : jsLt now (setDatePlus (item.end_time.getD none)
              (item.extension_lookahead_days.map (fun d => -d))) = false)
    (hgo : item.require_approval = false ∨ item.approval = true)
    (offers : List String)
    (hdesc : env.describe (item.capacity_block_id.getD "")
              (item.extend_by_days.map (· * 24)) = .ok offers)
    (hne : offers ≠ [])
    (hpur : env.purchase (item.capacity_block_id.getD "") (offers.headD "") = .ok ())
    (e d : Int)
    (het2 : item.end_time = some (some e)) (hd : item.extend_by_days = some d)
    (hupd : env.update (UpdateReq.extendedWrite item.PK (e + d * dayMs)) = .ok ()) :
    tryBody env now item =
      ([Action.describeOfferings (item.capacity_block_id.getD "")
          (item.extend_by_days.map (· * 24)),
        Action.purchase (item.capacity_block_id.getD "") (offers.headD ""),
        Action.updateItem (UpdateReq.extendedWrite item.PK (e + d * dayMs))], none) := by
  unfold tryBody
  rw [if_neg (by simp [hcb, het2])]
  rw [if_neg (by simp [hwin])]
  rw [if_neg (by rcases hgo with h | h <;> simp [h])]
  simp only [hdesc, List.isEmpty_eq_true, hne, if_false, hpur]
  rw [het2, hd]
  simp only [Option.getD_some, setDatePlus_some, hupd]

/-- Extension branch: provider returned zero offers. -/
theorem tryBody_noOffers (env : Env) (now : JSDate) (item : Item)
    (hcb : truthyStr item.capacity_block_id = true)
    (het : item.end_time.isSome = true)
    (hwin : jsLt now (setDatePlus (item.end_time.getD none)
              (item.extension_lookahead_days.map (fun d => -d))) = false)
    (hgo : item.require_approval = false ∨ item.approval = true)
    (hdesc : env.describe (item.capacity_block_id.getD "")
              (item.extend_by_days.map (· * 24)) = .ok []) :
    tryBody env now item =
      ([Action.describeOfferings (item.capacity_block_id.getD "")
          (item.extend_by_days.map (· * 24))],
       some ("No extension offerings available for " ++ item.capacity_block_id.getD "")) := by
  unfold tryBody
  rw [if_neg (by simp [hcb, het])]
  rw [if_neg (by simp [hwin])]
  rw [if_neg (by rcases hgo with h | h <;> simp [h])]
  simp only [hdesc, List.isEmpty_nil, if_true]

/-- Extension branch: the offer-lookup call itself rejected. -/
theorem tryBody_describeFail (env : Env) (now : JSDate) (item : Item)
    (hcb : truthyStr item.capacity_block_id = true)
    (het : item.end_time.isSome = true)
    (hwin : jsLt now (setDatePlus (item.end_time.getD none)
              (item.extension_lookahead_days.map (fun d => -d))) = false)
    (hgo : item.require_approval = false ∨ item.approval = true)
    (msg : String)
    (hdesc : env.describe (item.capacity_block_id.getD "")
              (item.extend_by_days.map (· * 24)) = .error msg) :
    tryBody env now item =
      ([Action.describeOfferings (item.capacity_block_id.getD "")
          (item.extend_by_days.map (· * 24))], some msg) := by
  unfold tryBody
  rw [if_neg (by simp [hcb, het])]
  rw [if_neg (by simp [hwin])]
  rw [if_neg (by rcases hgo with h | h <;> simp [h])]
  simp only [hdesc]

/-- Extension branch: the purchase call rejected. -/
theorem tryBody_purchaseFail (env : Env) (now : JSDate) (item : Item)
    (hcb : truthyStr item.capacity_block_id = true)
    (het : item.end_time.isSome = true)
    (hwin : jsLt now (setDatePlus (item.end_time.getD none)
              (item.extension_lookahead_days.map (fun d => -d))) = false)
    (hgo : item.require_approval = false ∨ item.approval = true)
    (offers : List String)
    (hdesc : env.describe (item.capacity_block_id.getD "")
              (item.extend_by_days.map (· * 24)) = .ok offers)
    (hne : offers ≠ [])
    (msg : String)
    (hpur : env.purchase (item.capacity_block_id.getD "") (offers.headD "") = .error msg) :
    tryBody env now item =
      ([Action.describeOfferings (item.capacity_block_id.getD "")
          (item.extend_by_days.map (· * 24)),
        Action.purchase (item.capacity_block_id.getD "") (offers.headD "")], some msg) := by
  unfold tryBody
  rw [if_neg (by simp [hcb, het])]
  rw [if_neg (by simp [hwin])]
  rw [if_neg (by rcases hgo with h | h <;> simp [h])]
  simp only [hdesc, List.isEmpty_eq_true, hne, if_false, hpur]

/-- `processItem` when the try block terminates normally. -/
theorem processItem_of_ok (env : Env) (now : JSDate) (item : Item)
    (acts : List Action) (h : tryBody env now item = (acts, none)) :
    processItem env now item = (acts, none) := by
  unfold processItem
  rw [h]

/-- `processItem` when the try block throws and the catch block's
`ERROR` write is accepted by the store. -/
theorem processItem_of_err (env : Env) (now : JSDate) (item : Item)
    (acts : List Action) (msg : String)
    (h : tryBody env now item = (acts, some msg))
    (hupd : env.update (updateStatusReq item.PK "ERROR" (some msg)) = .ok ()) :
    processItem env now item =
      (acts ++ [Action.updateItem (updateStatusReq item.PK "ERROR" (some msg))], none) := by
  unfold processItem
  rw [h]
  simp only [hupd]

end CBM

namespace CBM

/-! ### Computing persisted state from traces -/

theorem applyActions_nil (env : Env) (item : Item) :
    applyActions env [] item = item := rfl

theorem applyActions_updateOk (env : Env) (req : UpdateReq) (rest : List Action)
    (item : Item) (h : env.update req = .ok ()) :
    applyActions env (.updateItem req :: rest) item
      = applyActions env rest (applyUpdate req item) := by
  unfold applyActions
  simp [isOkB, h]

theorem applyActions_updateErr (env : Env) (req : UpdateReq) (rest : List Action)
    (item : Item) (msg : String) (h : env.update req = .error msg) :
    applyActions env (.updateItem req :: rest) item = applyActions env rest item := by
  unfold applyActions
  simp [isOkB, h]

theorem applyActions_describe (env : Env) (c : String) (hrs : Option Int)
    (rest : List Action) (item : Item) :
    applyActions env (.describeOfferings c hrs :: rest) item
      = applyActions env rest item := rfl

theorem applyActions_purchase (env : Env) (c o : String)
    (rest : List Action) (item : Item) :
    applyActions env (.purchase c o :: rest) item = applyActions env rest item := rfl

theorem applyActions_publish (env : Env) (a b c : String)
    (rest : List Action) (item : Item) :
    applyActions env (.publish a b c :: rest) item = applyActions env rest item := rfl

theorem applyUpdate_setStatusRemoveError_self (item : Item) (s : String) :
    applyUpdate (.setStatusRemoveError item.PK s) item
      = { item with status := some s, errorMessage := none } := by
  simp [applyUpdate]

theorem applyUpdate_setStatusSetError_self (item : Item) (s e : String) :
    applyUpdate (.setStatusSetError item.PK s e) item
      = { item with status := some s, errorMessage := some e } := by
  simp [applyUpdate]

theorem applyUpdate_setApprovalTrue_self (item : Item) :
    applyUpdate (.setApprovalTrue item.PK) item = { item with approval := true } := by
  simp [applyUpdate]

theorem applyUpdate_extendedWrite_self (item : Item) (t : Int) :
    applyUpdate (.extendedWrite item.PK t) item
      = { item with status := some "EXTENDED", end_time := some (some t),
                    approval := false, errorMessage := none } := by
  simp [applyUpdate]

theorem applyUpdate_approveClearsError_self (item : Item) :
    applyUpdate (.approveClearsError item.PK) item
      = { item with approval := true, errorMessage := none } := by
  simp [applyUpdate]

/-- When a throwing message is nonempty (truthy) the catch block's write
is `SET #status = ERROR, #error = msg`. -/
theorem updateStatusReq_msg (pk s m : String) (hm : m ≠ "") :
    updateStatusReq pk s (some m) = .setStatusSetError pk s m := by
  simp [updateStatusReq, truthyStr, hm]

end CBM

namespace CBM

theorem applyActions_append (env : Env) (l1 l2 : List Action) (item : Item) :
    applyActions env (l1 ++ l2) item = applyActions env l2 (applyActions env l1 item) := by
  unfold applyActions
  exact List.foldl_append _ _ _ _

theorem applyActions_noUpdates (env : Env) (acts : List Action) (item : Item)
    (h : ∀ req, Action.updateItem req ∉ acts) :
    applyActions env acts item = item := by
  induction acts with
  | nil => rfl
  | cons a rest ih =>
      have hrest : ∀ req, Action.updateItem req ∉ rest := by
        intro req hmem
        exact h req (List.mem_cons_of_mem _ hmem)
      cases a with
      | updateItem req => exact absurd (List.mem_cons_self _ _) (h req)
      | describeOfferings c hrs => rw [applyActions_describe]; exact ih hrest
      | purchase c o => rw [applyActions_purchase]; exact ih hrest
      | publish a b c => rw [applyActions_publish]; exact ih hrest

theorem applyActions_sendApprovalRequest (env : Env) (item x : Item) :
    applyActions env (sendApprovalRequest env item) x = x := by
  unfold sendApprovalRequest
  cases env.approvalTopicArn with
  | none => rfl
  | some arn => rfl

/-- Persisted image after a `NO_ACTION_REQUIRED` cycle. -/
theorem persisted_noAction (env : Env) (now : JSDate) (item : Item)
    (hcb : truthyStr item.capacity_block_id = true)
    (het : item.end_time.isSome = true)
    (hwin : jsLt now (setDatePlus (item.end_time.getD none)
              (item.extension_lookahead_days.map (fun d => -d))) = true)
    (hupd : env.update (UpdateReq.setStatusRemoveError item.PK "NO_ACTION_REQUIRED")
              = .ok ()) :
    persistedAfter env now item
      = { item with status := some "NO_ACTION_REQUIRED", errorMessage := none } := by
  unfold persistedAfter
  simp only [processItem_of_ok env now item _ (tryBody_noAction env now item hcb het hwin hupd)]
  rw [applyActions_updateOk env _ _ _ hupd, applyActions_nil,
    applyUpdate_setStatusRemoveError_self]

/-- Persisted image after an approval-required cycle with a notifier. -/
theorem persisted_notify (env : Env) (now : JSDate) (item : Item)
    (hcb : truthyStr item.capacity_block_id = true)
    (het : item.end_time.isSome = true)
    (hwin : jsLt now (setDatePlus (item.end_time.getD none)
              (item.extension_lookahead_days.map (fun d => -d))) = false)
    (hra : item.require_approval = true) (hap : item.approval = false)
    (hwf : env.approvalWorkflowEnabled = true)
    (hupd : env.update (UpdateReq.setStatusRemoveError item.PK "EXTENSION_APPROVAL_REQUIRED")
              = .ok ()) :
    persistedAfter env now item
      = { item with status := some "EXTENSION_APPROVAL_REQUIRED", errorMessage := none } := by
  unfold persistedAfter
  simp only [processItem_of_ok env now item _
    (tryBody_notify env now item hcb het hwin hra hap hwf hupd)]
  rw [applyActions_updateOk env _ _ _ hupd, applyActions_sendApprovalRequest,
    applyUpdate_setStatusRemoveError_self]

/-- Persisted image after an approval-required cycle with no notifier:
the fallback auto-approval. -/
theorem persisted_autoApprove (env : Env) (now : JSDate) (item : Item)
    (hcb : truthyStr item.capacity_block_id = true)
    (het : item.end_time.isSome = true)
    (hwin : jsLt now (setDatePlus (item.end_time.getD none)
              (item.extension_lookahead_days.map (fun d => -d))) = false)
    (hra : item.require_approval = true) (hap : item.approval = false)
    (hwf : env.approvalWorkflowEnabled = false)
    (hupd1 : env.update (UpdateReq.setStatusRemoveError item.PK "EXTENSION_APPROVAL_REQUIRED")
              = .ok ())
    (hupd2 : env.update (UpdateReq.setApprovalTrue item.PK) = .ok ()) :
    persistedAfter env now item
      = { item with status := some "EXTENSION_APPROVAL_REQUIRED", errorMessage := none,
                    approval := true } := by
  unfold persistedAfter
  simp only [processItem_of_ok env now item _
    (tryBody_autoApprove env now item hcb het hwin hra hap hwf hupd1 hupd2)]
  rw [applyActions_updateOk env _ _ _ hupd1, applyUpdate_setStatusRemoveError_self]
  rw [applyActions_updateOk env _ _ _ hupd2, applyActions_nil]
  simp [applyUpdate]

/-- Persisted image after a successful extension cycle. -/
theorem persisted_extendOk (env : Env) (now : JSDate) (item : Item)
    (hcb : truthyStr item.capacity_block_id = true)
    (hwin : jsLt now (setDatePlus (item.end_time.getD none)
              (item.extension_lookahead_days.map (fun d => -d))) = false)
    (hgo : item.require_approval = false ∨ item.approval = true)
    (offers : List String)
    (hdesc : env.describe (item.capacity_block_id.getD "")
              (item.extend_by_days.map (· * 24)) = .ok offers)
    (hne : offers ≠ [])
    (hpur : env.purchase (item.capacity_block_id.getD "") (offers.headD "") = .ok ())
    (e d : Int)
    (het2 : item.end_time = some (some e)) (hd : item.extend_by_days = some d)
    (hupd : env.update (UpdateReq.extendedWrite item.PK (e + d * dayMs)) = .ok ()) :
    persistedAfter env now item
      = { item with status := some "EXTENDED", end_time := some (some (e + d * dayMs)),
                    approval := false, errorMessage := none } := by
  unfold persistedAfter
  simp only [processItem_of_ok env now item _
    (tryBody_extendOk env now item hcb hwin hgo offers hdesc hne hpur e d het2 hd hupd)]
  rw [applyActions_describe, applyActions_purchase,
    applyActions_updateOk env _ _ _ hupd, applyActions_nil, applyUpdate_extendedWrite_self]

/-- Persisted image after a failed cycle whose try-block trace made no
store writes, when the catch block's `ERROR` write is accepted. -/
theorem persisted_error_of (env : Env) (now : JSDate) (item : Item)
    (acts : List Action) (msg : String)
    (htb : tryBody env now item = (acts, some msg))
    (hnoupd : ∀ req, Action.updateItem req ∉ acts)
    (hmsg : msg ≠ "")
    (hupd : env.update (UpdateReq.setStatusSetError item.PK "ERROR" msg) = .ok ()) :
    persistedAfter env now item
      = { item with status := some "ERROR", errorMessage := some msg } := by
  unfold persistedAfter
  have hreq : updateStatusReq item.PK "ERROR" (some msg)
      = UpdateReq.setStatusSetError item.PK "ERROR" msg := updateStatusReq_msg _ _ _ hmsg
  have hp := processItem_of_err env now item acts msg htb (by rw [hreq]; exact hupd)
  rw [hreq] at hp
  simp only [hp]
  rw [applyActions_append, applyActions_noUpdates env acts item hnoupd,
    applyActions_updateOk env _ _ _ hupd, applyActions_nil, applyUpdate_setStatusSetError_self]

end CBM

namespace CBM

/-! ### Concrete fixtures used by witnesses and counterexamples -/

/-- Environment where every call succeeds, the provider always returns
the single offering `off-1`, and no notifier topic is configured. -/
def envOk : Env where
  approvalTopicArn := none
  update := fun _ => .ok ()
  describe := fun _ _ => .ok ["off-1"]
  purchase := fun _ _ => .ok ()
  publish := fun _ _ _ => .ok ()

/-- `envOk` with a notifier topic configured. -/
def envNotify : Env := { envOk with approvalTopicArn := some "arn:approval-topic" }

/-- A well-formed record expiring at day 1000 with a 5-day lookahead and
a 30-day extension request. -/
def baseItem : Item where
  PK := "rec-1"
  capacity_block_id := some "cb-1"
  end_time := some (some (1000 * dayMs))
  extension_lookahead_days := some 5
  extend_by_days := some 30
  require_approval := false
  approval := false
  status := none
  errorMessage := none
  name := none
  region := none

/-! ### Claim theorems -/

/-- **C1**: for every record whose extension succeeds (an offer exists
and the purchase call succeeds, and the success write is accepted), the
persisted state has `newEndTime = oldEndTime + extendByDays` in exact
calendar-day arithmetic, `status = EXTENDED`, `approval = false`, and
`errorMessage` removed; no other field changes, and no exception escapes
the record's iteration. -/
theorem extension_success_state
    (env : Env) (now : JSDate) (item : Item)
    (hcb : truthyStr item.capacity_block_id = true)
    (hwin : jsLt now (setDatePlus (item.end_time.getD none)
              (item.extension_lookahead_days.map (fun d => -d))) = false)
    (hgo : item.require_approval = false ∨ item.approval = true)
    (offers : List String)
    (hdesc : env.describe (item.capacity_block_id.getD "")
              (item.extend_by_days.map (· * 24)) = .ok offers)
    (hne : offers ≠ [])
    (hpur : env.purchase (item.capacity_block_id.getD "") (offers.headD "") = .ok ())
    (e d : Int)
    (het2 : item.end_time = some (some e)) (hd : item.extend_by_days = some d)
    (hupd : env.update (UpdateReq.extendedWrite item.PK (e + d * dayMs)) = .ok ()) :
    persistedAfter env now item
      = { item with status := some "EXTENDED",
                    end_time := some (some (e + d * dayMs)),
                    approval := false, errorMessage := none } ∧
    (processItem env now item).2 = none := by
  refine ⟨persisted_extendOk env now item hcb hwin hgo offers hdesc hne hpur e d het2 hd hupd, ?_⟩
  simp only [processItem_of_ok env now item _
    (tryBody_extendOk env now item hcb hwin hgo offers hdesc hne hpur e d het2 hd hupd)]

/-- Witness for C1: the base record extended by 30 days from day 1000. -/
theorem extension_success_state_witness :
    persistedAfter envOk (some (996 * dayMs)) baseItem
      = { baseItem with status := some "EXTENDED",
                        end_time := some (some (1000 * dayMs + 30 * dayMs)),
                        approval := false, errorMessage := none } ∧
    (processItem envOk (some (996 * dayMs)) baseItem).2 = none :=
  extension_success_state envOk (some (996 * dayMs)) baseItem (by decide) (by decide)
    (Or.inl rfl) ["off-1"] rfl (by decide) rfl (1000 * dayMs) 30 rfl rfl rfl

/-- **C2**: for a record with `now < endTime − extensionLookaheadDays`,
the cycle performs exactly one store write setting
`status = NO_ACTION_REQUIRED` (and removing `error`), leaves `endTime`
and `approval` unchanged, makes no Capacity Provider call, and
re-evaluating the persisted record produces the same write and the same
state: the steady state is idempotent. -/
theorem no_action_before_window_idempotent
    (env : Env) (now : JSDate) (item : Item)
    (hcb : truthyStr item.capacity_block_id = true)
    (het : item.end_time.isSome = true)
    (hwin : jsLt now (setDatePlus (item.end_time.getD none)
              (item.extension_lookahead_days.map (fun d => -d))) = true)
    (hupd : env.update (UpdateReq.setStatusRemoveError item.PK "NO_ACTION_REQUIRED")
              = .ok ()) :
    processItem env now item
      = ([Action.updateItem (UpdateReq.setStatusRemoveError item.PK "NO_ACTION_REQUIRED")],
         none) ∧
    persistedAfter env now item
      = { item with status := some "NO_ACTION_REQUIRED", errorMessage := none } ∧
    hasProviderCall (processItem env now item).1 = false ∧
    processItem env now { item with status := some "NO_ACTION_REQUIRED", errorMessage := none }
      = ([Action.updateItem (UpdateReq.setStatusRemoveError item.PK "NO_ACTION_REQUIRED")],
         none) ∧
    persistedAfter env now { item with status := some "NO_ACTION_REQUIRED", errorMessage := none }
      = { item with status := some "NO_ACTION_REQUIRED", errorMessage := none } := by
  have hp := processItem_of_ok env now item _ (tryBody_noAction env now item hcb het hwin hupd)
  refine ⟨hp, persisted_noAction env now item hcb het hwin hupd, ?_, ?_, ?_⟩
  · rw [hp]; rfl
  · exact processItem_of_ok env now _ _
      (tryBody_noAction env now
        { item with status := some "NO_ACTION_REQUIRED", errorMessage := none }
        hcb het hwin hupd)
  · exact persisted_noAction env now
      { item with status := some "NO_ACTION_REQUIRED", errorMessage := none }
      hcb het hwin hupd

/-- Witness for C2: the base record nine days before the window. -/
theorem no_action_before_window_idempotent_witness :
    processItem envOk (some (990 * dayMs)) baseItem
      = ([Action.updateItem (UpdateReq.setStatusRemoveError "rec-1" "NO_ACTION_REQUIRED")],
         none) ∧
    persistedAfter envOk (some (990 * dayMs)) baseItem
      = { baseItem with status := some "NO_ACTION_REQUIRED", errorMessage := none } ∧
    hasProviderCall (processItem envOk (some (990 * dayMs)) baseItem).1 = false ∧
    processItem envOk (some (990 * dayMs))
        { baseItem with status := some "NO_ACTION_REQUIRED", errorMessage := none }
      = ([Action.updateItem (UpdateReq.setStatusRemoveError "rec-1" "NO_ACTION_REQUIRED")],
         none) ∧
    persistedAfter envOk (some (990 * dayMs))
        { baseItem with status := some "NO_ACTION_REQUIRED", errorMessage := none }
      = { baseItem with status := some "NO_ACTION_REQUIRED", errorMessage := none } :=
  no_action_before_window_idempotent envOk (some (990 * dayMs)) baseItem
    (by decide) (by decide) (by decide) rfl

end CBM

namespace CBM

/-- **C3**: with `requireApproval = true`, `approval = false`,
`now ≥ threshold` and no notifier configured, one cycle persists
`status = EXTENSION_APPROVAL_REQUIRED` and flips `approval` to `true`
with no Capacity Provider call; a following cycle on the persisted
record (approval now observed `true`) performs the extension. -/
theorem fallback_auto_approval
    (env : Env) (now : JSDate) (item : Item)
    (hcb : truthyStr item.capacity_block_id = true)
    (het : item.end_time.isSome = true)
    (hwin : jsLt now (setDatePlus (item.end_time.getD none)
              (item.extension_lookahead_days.map (fun d => -d))) = false)
    (hra : item.require_approval = true) (hap : item.approval = false)
    (hwf : env.approvalWorkflowEnabled = false)
    (hupd1 : env.update (UpdateReq.setStatusRemoveError item.PK "EXTENSION_APPROVAL_REQUIRED")
              = .ok ())
    (hupd2 : env.update (UpdateReq.setApprovalTrue item.PK) = .ok ())
    (offers : List String)
    (hdesc : env.describe (item.capacity_block_id.getD "")
              (item.extend_by_days.map (· * 24)) = .ok offers)
    (hne : offers ≠ [])
    (hpur : env.purchase (item.capacity_block_id.getD "") (offers.headD "") = .ok ())
    (e d : Int)
    (het2 : item.end_time = some (some e)) (hd : item.extend_by_days = some d)
    (hupd3 : env.update (UpdateReq.extendedWrite item.PK (e + d * dayMs)) = .ok ()) :
    persistedAfter env now item
      = { item with status := some "EXTENSION_APPROVAL_REQUIRED", errorMessage := none,
                    approval := true } ∧
    hasProviderCall (processItem env now item).1 = false ∧
    persistedAfter env now
        { item with status := some "EXTENSION_APPROVAL_REQUIRED", errorMessage := none,
                    approval := true }
      = { item with status := some "EXTENDED", end_time := some (some (e + d * dayMs)),
                    approval := false, errorMessage := none } := by
  have hp := processItem_of_ok env now item _
    (tryBody_autoApprove env now item hcb het hwin hra hap hwf hupd1 hupd2)
  refine ⟨persisted_autoApprove env now item hcb het hwin hra hap hwf hupd1 hupd2,
    by rw [hp]; rfl, ?_⟩
  exact persisted_extendOk env now
    { item with status := some "EXTENSION_APPROVAL_REQUIRED", errorMessage := none,
                approval := true }
    hcb hwin (Or.inr rfl) offers hdesc hne hpur e d het2 hd hupd3

/-- Witness for C3: the base record with approval required, evaluated
inside the lookahead window without a notifier. -/
theorem fallback_auto_approval_witness :
    persistedAfter envOk (some (996 * dayMs)) { baseItem with require_approval := true }
      = { { baseItem with require_approval := true } with
            status := some "EXTENSION_APPROVAL_REQUIRED", errorMessage := none,
            approval := true } ∧
    hasProviderCall (processItem envOk (some (996 * dayMs))
        { baseItem with require_approval := true }).1 = false ∧
    persistedAfter envOk (some (996 * dayMs))
        { { baseItem with require_approval := true } with
            status := some "EXTENSION_APPROVAL_REQUIRED", errorMessage := none,
            approval := true }
      = { { baseItem with require_approval := true } with
            status := some "EXTENDED", end_time := some (some (1000 * dayMs + 30 * dayMs)),
            approval := false, errorMessage := none } :=
  fallback_auto_approval envOk (some (996 * dayMs)) { baseItem with require_approval := true }
    (by decide) (by decide) (by decide) rfl rfl rfl rfl rfl ["off-1"] rfl (by decide) rfl
    (1000 * dayMs) 30 rfl rfl rfl

/-- **C4**: with `requireApproval = true`, `approval = false`,
`now ≥ threshold` and a notifier configured, the cycle persists
`status = EXTENSION_APPROVAL_REQUIRED`, publishes exactly one approval
notification, leaves `approval` at `false`, and makes no provider call.
The environment's `publish` result is unconstrained, so the conclusions
hold whether the notification call fulfils or rejects: a notifier
failure is swallowed and neither changes the persisted status nor
escalates to `ERROR`. -/
theorem approval_notification_advisory
    (env : Env) (now : JSDate) (item : Item)
    (hcb : truthyStr item.capacity_block_id = true)
    (het : item.end_time.isSome = true)
    (hwin : jsLt now (setDatePlus (item.end_time.getD none)
              (item.extension_lookahead_days.map (fun d => -d))) = false)
    (hra : item.require_approval = true) (hap : item.approval = false)
    (arn : String) (harn : env.approvalTopicArn = some arn)
    (hupd : env.update (UpdateReq.setStatusRemoveError item.PK "EXTENSION_APPROVAL_REQUIRED")
              = .ok ()) :
    processItem env now item
      = ([Action.updateItem (UpdateReq.setStatusRemoveError item.PK "EXTENSION_APPROVAL_REQUIRED"),
          Action.publish arn ("Approval Required: " ++ nameOrPK item)
            ("Capacity block " ++ jsShow item.capacity_block_id ++ " for " ++
              nameOrPK item ++ " in " ++ jsShow item.region ++
              " requires approval for extension.")], none) ∧
    persistedAfter env now item
      = { item with status := some "EXTENSION_APPROVAL_REQUIRED", errorMessage := none } ∧
    publishCount (processItem env now item).1 = 1 ∧
    hasProviderCall (processItem env now item).1 = false ∧
    (persistedAfter env now item).approval = false := by
  have hwf : env.approvalWorkflowEnabled = true := by
    simp [Env.approvalWorkflowEnabled, harn]
  have hp := processItem_of_ok env now item _
    (tryBody_notify env now item hcb het hwin hra hap hwf hupd)
  have hsend : sendApprovalRequest env item
      = [Action.publish arn ("Approval Required: " ++ nameOrPK item)
          ("Capacity block " ++ jsShow item.capacity_block_id ++ " for " ++
            nameOrPK item ++ " in " ++ jsShow item.region ++
            " requires approval for extension.")] := by
    simp [sendApprovalRequest, harn]
  rw [hsend] at hp
  have hpers := persisted_notify env now item hcb het hwin hra hap hwf hupd
  refine ⟨hp, hpers, by rw [hp]; rfl, by rw [hp]; rfl, ?_⟩
  rw [hpers]
  exact hap

/-- Witness for C4: the base record with approval required, evaluated
inside the window with the notifier topic configured. -/
theorem approval_notification_advisory_witness :
    processItem envNotify (some (996 * dayMs)) { baseItem with require_approval := true }
      = ([Action.updateItem (UpdateReq.setStatusRemoveError "rec-1" "EXTENSION_APPROVAL_REQUIRED"),
          Action.publish "arn:approval-topic" ("Approval Required: " ++
            nameOrPK { baseItem with require_approval := true })
            ("Capacity block " ++ jsShow (some "cb-1") ++ " for " ++
              nameOrPK { baseItem with require_approval := true } ++ " in " ++ jsShow none ++
              " requires approval for extension.")], none) ∧
    persistedAfter envNotify (some (996 * dayMs)) { baseItem with require_approval := true }
      = { { baseItem with require_approval := true } with
            status := some "EXTENSION_APPROVAL_REQUIRED", errorMessage := none } ∧
    publishCount (processItem envNotify (some (996 * dayMs))
        { baseItem with require_approval := true }).1 = 1 ∧
    hasProviderCall (processItem envNotify (some (996 * dayMs))
        { baseItem with require_approval := true }).1 = false ∧
    (persistedAfter envNotify (some (996 * dayMs))
        { baseItem with require_approval := true }).approval = false :=
  approval_notification_advisory envNotify (some (996 * dayMs))
    { baseItem with require_approval := true }
    (by decide) (by decide) (by decide) rfl rfl "arn:approval-topic" rfl rfl

end CBM

namespace CBM

theorem append_ne_empty_left (a b : String) (h : a ≠ "") : a ++ b ≠ "" := by
  intro hc
  apply h
  have hd := congrArg String.data hc
  rw [String.data_append] at hd
  exact String.ext (List.append_eq_nil.mp hd).1

/-- **C5**: for each per-record failure kind named by the spec — missing
required fields, zero offers returned, a failed offer-lookup call, or a
failed purchase call — the cycle's persisted effect (when the `ERROR`
status write is accepted) is exactly setting `status = ERROR` and
`errorMessage`; every other field, in particular `end_time` and
`approval`, is left unchanged, so `endTime` does not advance on a failed
cycle. -/
theorem failure_writes_only_status_and_error
    (env : Env) (now : JSDate) (item : Item) :
    (¬ (truthyStr item.capacity_block_id = true ∧ item.end_time.isSome = true) →
      env.update (UpdateReq.setStatusSetError item.PK "ERROR"
        "Missing capacity_block_id or end_time") = .ok () →
      persistedAfter env now item
        = { item with status := some "ERROR",
                      errorMessage := some "Missing capacity_block_id or end_time" }) ∧
    (truthyStr item.capacity_block_id = true → item.end_time.isSome = true →
      jsLt now (setDatePlus (item.end_time.getD none)
        (item.extension_lookahead_days.map (fun d => -d))) = false →
      (item.require_approval = false ∨ item.approval = true) →
      env.describe (item.capacity_block_id.getD "")
        (item.extend_by_days.map (· * 24)) = .ok [] →
      env.update (UpdateReq.setStatusSetError item.PK "ERROR"
        ("No extension offerings available for " ++ item.capacity_block_id.getD ""))
        = .ok () →
      persistedAfter env now item
        = { item with status := some "ERROR",
                      errorMessage := some ("No extension offerings available for "
                        ++ item.capacity_block_id.getD "") }) ∧
    (∀ msg : String, msg ≠ "" →
      truthyStr item.capacity_block_id = true → item.end_time.isSome = true →
      jsLt now (setDatePlus (item.end_time.getD none)
        (item.extension_lookahead_days.map (fun d => -d))) = false →
      (item.require_approval = false ∨ item.approval = true) →
      env.describe (item.capacity_block_id.getD "")
        (item.extend_by_days.map (· * 24)) = .error msg →
      env.update (UpdateReq.setStatusSetError item.PK "ERROR" msg) = .ok () →
      persistedAfter env now item
        = { item with status := some "ERROR", errorMessage := some msg }) ∧
    (∀ (offers : List String) (msg : String), msg ≠ "" → offers ≠ [] →
      truthyStr item.capacity_block_id = true → item.end_time.isSome = true →
      jsLt now (setDatePlus (item.end_time.getD none)
        (item.extension_lookahead_days.map (fun d => -d))) = false →
      (item.require_approval = false ∨ item.approval = true) →
      env.describe (item.capacity_block_id.getD "")
        (item.extend_by_days.map (· * 24)) = .ok offers →
      env.purchase (item.capacity_block_id.getD "") (offers.headD "") = .error msg →
      env.update (UpdateReq.setStatusSetError item.PK "ERROR" msg) = .ok () →
      persistedAfter env now item
        = { item with status := some "ERROR", errorMessage := some msg }) := by
  refine ⟨?_, ?_, ?_, ?_⟩
  · intro hval hupd
    exact persisted_error_of env now item [] _
      (tryBody_validation env now item (by simpa using hval))
      (by intro req h; cases h) (by decide) hupd
  · intro hcb het hwin hgo hdesc hupd
    exact persisted_error_of env now item _ _
      (tryBody_noOffers env now item hcb het hwin hgo hdesc)
      (by intro req h; simp at h)
      (append_ne_empty_left _ _ (by decide)) hupd
  · intro msg hmsg hcb het hwin hgo hdesc hupd
    exact persisted_error_of env now item _ _
      (tryBody_describeFail env now item hcb het hwin hgo msg hdesc)
      (by intro req h; simp at h) hmsg hupd
  · intro offers msg hmsg hne hcb het hwin hgo hdesc hpur hupd
    exact persisted_error_of env now item _ _
      (tryBody_purchaseFail env now item hcb het hwin hgo offers hdesc hne msg hpur)
      (by intro req h; simp at h) hmsg hupd

/-- Witness for C5: a record lacking `end_time` is persisted as `ERROR`
with only `status`/`errorMessage` changed. -/
theorem failure_writes_only_status_and_error_witness :
    persistedAfter envOk (some 0) { baseItem with end_time := none }
      = { { baseItem with end_time := none } with
            status := some "ERROR",
            errorMessage := some "Missing capacity_block_id or end_time" } :=
  (failure_writes_only_status_and_error envOk (some 0)
    { baseItem with end_time := none }).1 (by decide) rfl

end CBM

namespace CBM

/-! ### C6: the errorMessage/status invariant -/

/-- A record in a legal `ERROR` state. -/
def itemErr : Item :=
  { baseItem with status := some "ERROR", errorMessage := some "provider down" }

/-- Counterexample for C6: the CRUD "approve" partial update
(`SET #approval = :false REMOVE #error`, `src/api/index.js` PATCH
branch) removes `error` without touching `status`, so applying it to a
record with `status = ERROR` leaves `status = ERROR` with no
`errorMessage`, violating the claimed if-and-only-if invariant. -/
theorem approve_breaks_error_invariant :
    errorInv itemErr ∧
    applyActions envOk (apiApprove envOk "rec-1").1 itemErr
      = { itemErr with approval := true, errorMessage := none } ∧
    ¬ errorInv (applyActions envOk (apiApprove envOk "rec-1").1 itemErr) := by
  refine ⟨by decide, by decide, by decide⟩

/-- **C6 (amended)**: the invariant `errorMessage present ↔ status =
ERROR` is preserved by every write the reconciliation core issues — the
message-free status writes (whose status argument is never `"ERROR"`),
the `ERROR`-with-message write, the auto-approve write, and the success
write — while the CRUD "approve" partial update preserves only the
direction "errorMessage present → status = ERROR": it clears
`errorMessage` without touching `status`, so on a record currently in
`ERROR` it breaks the reverse direction. -/
theorem error_invariant_preservation :
    (∀ (item : Item) (pk s : String), s ≠ "ERROR" → errorInv item →
      errorInv (applyUpdate (UpdateReq.setStatusRemoveError pk s) item)) ∧
    (∀ (item : Item) (pk e : String), errorInv item →
      errorInv (applyUpdate (UpdateReq.setStatusSetError pk "ERROR" e) item)) ∧
    (∀ (item : Item) (pk : String), errorInv item →
      errorInv (applyUpdate (UpdateReq.setApprovalTrue pk) item)) ∧
    (∀ (item : Item) (pk : String) (t : Int), errorInv item →
      errorInv (applyUpdate (UpdateReq.extendedWrite pk t) item)) ∧
    (∀ (item : Item) (pk : String), errorInv item →
      (applyUpdate (UpdateReq.approveClearsError pk) item).errorMessage.isSome →
      (applyUpdate (UpdateReq.approveClearsError pk) item).status = some "ERROR") := by
  refine ⟨?_, ?_, ?_, ?_, ?_⟩
  · intro item pk s hs hinv
    simp only [applyUpdate]
    by_cases hpk : pk = item.PK
    · rw [if_pos hpk]
      simp [errorInv, hs]
    · rw [if_neg hpk]; exact hinv
  · intro item pk e hinv
    simp only [applyUpdate]
    by_cases hpk : pk = item.PK
    · rw [if_pos hpk]; simp [errorInv]
    · rw [if_neg hpk]; exact hinv
  · intro item pk hinv
    simp only [applyUpdate]
    by_cases hpk : pk = item.PK
    · rw [if_pos hpk]
      simpa [errorInv] using hinv
    · rw [if_neg hpk]; exact hinv
  · intro item pk t hinv
    simp only [applyUpdate]
    by_cases hpk : pk = item.PK
    · rw [if_pos hpk]; simp [errorInv]
    · rw [if_neg hpk]; exact hinv
  · intro item pk hinv hsome
    simp only [applyUpdate] at hsome ⊢
    by_cases hpk : pk = item.PK
    · rw [if_pos hpk] at hsome
      simp at hsome
    · rw [if_neg hpk] at hsome ⊢
      exact hinv.mp hsome

/-- Witness for C6: the preservation clauses applied to the base record
and to the `ERROR` record. -/
theorem error_invariant_preservation_witness :
    errorInv (applyUpdate (UpdateReq.setStatusRemoveError "rec-1" "NO_ACTION_REQUIRED") baseItem) ∧
    errorInv (applyUpdate (UpdateReq.setStatusSetError "rec-1" "ERROR" "provider down") baseItem) ∧
    errorInv (applyUpdate (UpdateReq.setApprovalTrue "rec-1") itemErr) ∧
    errorInv (applyUpdate (UpdateReq.extendedWrite "rec-1" 0) itemErr) :=
  ⟨error_invariant_preservation.1 baseItem "rec-1" "NO_ACTION_REQUIRED" (by decide) (by decide),
   error_invariant_preservation.2.1 baseItem "rec-1" "provider down" (by decide),
   error_invariant_preservation.2.2.1 itemErr "rec-1" (by decide),
   error_invariant_preservation.2.2.2.1 itemErr "rec-1" 0 (by decide)⟩

/-! ### C9: no optimistic-concurrency guard before purchase -/

/-- Counterexample for C9: a record whose stored `status` is already
`EXTENDED` (as a concurrent invocation would have left it mid-flight)
still receives a `purchase` call, with no conditional update or status
re-read anywhere in its trace — the code reads no guard before
purchasing. -/
theorem purchase_despite_midflight_status :
    (processItem envOk (some (996 * dayMs)) { baseItem with status := some "EXTENDED" }).1
      = [Action.describeOfferings "cb-1" (some 720),
         Action.purchase "cb-1" "off-1",
         Action.updateItem (UpdateReq.extendedWrite "rec-1" (1030 * dayMs))] ∧
    hasPurchase (processItem envOk (some (996 * dayMs))
        { baseItem with status := some "EXTENDED" }).1 = true := by
  refine ⟨by decide, by decide⟩

/-- **C9 (amended)**: the core performs no optimistic-concurrency guard:
its behaviour — every external call it makes, including purchase — is
entirely independent of the record's stored `status` and `errorMessage`,
and all its updates are unconditional, so nothing prevents a purchase
when the pre-read status is already mid-flight. -/
theorem step_independent_of_stored_status (env : Env) (now : JSDate) (item : Item)
    (st em : Option String) :
    processItem env now { item with status := st, errorMessage := em }
      = processItem env now item := rfl

end CBM

namespace CBM

/-! ### C8: error message contents -/

/-- A record with a `capacity_block_id` but no `end_time`. -/
def itemNoEnd : Item :=
  { baseItem with PK := "rec-8", capacity_block_id := some "cb-8", end_time := none }

/-- Counterexample for C8: a validation failure persists the fixed
message `"Missing capacity_block_id or end_time"`, which contains
neither the record's id (`rec-8`) nor its capacityBlockId (`cb-8`). -/
theorem validation_error_message_lacks_record_id :
    persistedAfter envOk (some 0) itemNoEnd
      = { itemNoEnd with
            status := some "ERROR",
            errorMessage := some "Missing capacity_block_id or end_time" } ∧
    ¬ "rec-8".data <:+: "Missing capacity_block_id or end_time".data ∧
    ¬ "cb-8".data <:+: "Missing capacity_block_id or end_time".data := by
  refine ⟨by decide, by decide, by decide⟩

/-- **C8 (amended)**: the `NoOfferingAvailable` error message embeds the
failing record's capacityBlockId (it is persisted as
`"No extension offerings available for " ++ capacityBlockId`), and
provider-call failures persist the provider's message verbatim; but
validation failures persist the fixed message
`"Missing capacity_block_id or end_time"` for every record, which does
not name the record. -/
theorem no_offering_error_contains_block_id
    (env : Env) (now : JSDate) (item : Item)
    (hcb : truthyStr item.capacity_block_id = true)
    (het : item.end_time.isSome = true)
    (hwin : jsLt now (setDatePlus (item.end_time.getD none)
              (item.extension_lookahead_days.map (fun d => -d))) = false)
    (hgo : item.require_approval = false ∨ item.approval = true)
    (hdesc : env.describe (item.capacity_block_id.getD "")
              (item.extend_by_days.map (· * 24)) = .ok [])
    (hupd : env.update (UpdateReq.setStatusSetError item.PK "ERROR"
              ("No extension offerings available for " ++ item.capacity_block_id.getD ""))
              = .ok ()) :
    persistedAfter env now item
      = { item with
            status := some "ERROR",
            errorMessage := some ("No extension offerings available for "
              ++ item.capacity_block_id.getD "") } ∧
    (item.capacity_block_id.getD "").data
      <:+: ("No extension offerings available for "
              ++ item.capacity_block_id.getD "").data ∧
    (∀ (it : Item), ¬ (truthyStr it.capacity_block_id = true ∧ it.end_time.isSome = true) →
      tryBody env now it = ([], some "Missing capacity_block_id or end_time")) := by
  refine ⟨persisted_error_of env now item _ _
      (tryBody_noOffers env now item hcb het hwin hgo hdesc)
      (by intro req h; simp at h)
      (append_ne_empty_left _ _ (by decide)) hupd, ?_, ?_⟩
  · rw [String.data_append]
    exact (List.suffix_append _ _).isInfix
  · intro it hval
    exact tryBody_validation env now it (by simpa using hval)

/-- Witness for C8's amended theorem: the base record against a provider
with no offerings. -/
theorem no_offering_error_contains_block_id_witness :
    persistedAfter { envOk with describe := fun _ _ => .ok [] } (some (996 * dayMs)) baseItem
      = { baseItem with
            status := some "ERROR",
            errorMessage := some ("No extension offerings available for "
              ++ (baseItem.capacity_block_id.getD "")) } ∧
    (baseItem.capacity_block_id.getD "").data
      <:+: ("No extension offerings available for "
              ++ baseItem.capacity_block_id.getD "").data ∧
    (∀ (it : Item), ¬ (truthyStr it.capacity_block_id = true ∧ it.end_time.isSome = true) →
      tryBody { envOk with describe := fun _ _ => .ok [] } (some (996 * dayMs)) it
        = ([], some "Missing capacity_block_id or end_time")) :=
  no_offering_error_contains_block_id { envOk with describe := fun _ _ => .ok [] }
    (some (996 * dayMs)) baseItem (by decide) (by decide) (by decide) (Or.inl rfl) rfl rfl

end CBM

namespace CBM

/-! ### C7: error isolation across the batch -/

/-- The item key an update request is addressed to. -/
def UpdateReq.key : UpdateReq → String
  | .setStatusRemoveError pk _ => pk
  | .setStatusSetError pk _ _ => pk
  | .setApprovalTrue pk => pk
  | .extendedWrite pk _ => pk
  | .approveClearsError pk => pk

theorem applyUpdate_other (req : UpdateReq) (item : Item) (h : req.key ≠ item.PK) :
    applyUpdate req item = item := by
  cases req <;> simp only [applyUpdate, UpdateReq.key] at h ⊢ <;> rw [if_neg h]

/-- Record `A`: provider offer lookup fails and the subsequent `ERROR`
status write is also rejected by the store. -/
def envC7 : Env where
  approvalTopicArn := none
  update := fun req =>
    match req with
    | .setStatusSetError "rec-A" _ _ => .error "ddb down"
    | _ => .ok ()
  describe := fun cb _ => if cb = "cb-A" then .error "provider down" else .ok ["off-1"]
  purchase := fun _ _ => .ok ()
  publish := fun _ _ _ => .ok ()

def itemA : Item := { baseItem with PK := "rec-A", capacity_block_id := some "cb-A" }

def itemB : Item := { baseItem with PK := "rec-B", capacity_block_id := some "cb-B" }

/-- Counterexample for C7: when record A's provider call fails *and* the
`catch` block's own `ERROR` status write rejects, the exception escapes
the loop iteration (`src/extender/index.js` line 134 is not guarded) and
the invocation rejects: record B is never processed — no purchase
happens anywhere and B's stored state is untouched, so B does not reach
`EXTENDED`. -/
theorem error_write_failure_aborts_batch :
    runLoop envC7 (some (996 * dayMs)) [itemA, itemB]
      = ([Action.describeOfferings "cb-A" (some 720),
          Action.updateItem (UpdateReq.setStatusSetError "rec-A" "ERROR" "provider down")],
         some "ddb down") ∧
    hasPurchase (runLoop envC7 (some (996 * dayMs)) [itemA, itemB]).1 = false ∧
    applyActions envC7 (runLoop envC7 (some (996 * dayMs)) [itemA, itemB]).1 itemB
      = itemB := by
  refine ⟨by decide, by decide, by decide⟩

/-- **C7 (amended)**: per-record errors are caught and persisted as
`ERROR` and do not abort processing of sibling records *provided the
`ERROR` status write itself is accepted*: a provider failure on record A
still lets record B in the same batch reach `EXTENDED`, A is persisted
as `ERROR` with the provider's message, and no exception escapes the
invocation.  (If A's `ERROR` write itself fails the invocation aborts —
see the counterexample.) -/
theorem provider_failure_isolated_when_error_write_accepted
    (env : Env) (now : JSDate) (A B : Item) (hPK : A.PK ≠ B.PK)
    (hAcb : truthyStr A.capacity_block_id = true)
    (hAet : A.end_time.isSome = true)
    (hAwin : jsLt now (setDatePlus (A.end_time.getD none)
              (A.extension_lookahead_days.map (fun d => -d))) = false)
    (hAgo : A.require_approval = false ∨ A.approval = true)
    (msgA : String) (hmsgA : msgA ≠ "")
    (hAdesc : env.describe (A.capacity_block_id.getD "")
              (A.extend_by_days.map (· * 24)) = .error msgA)
    (hAupd : env.update (UpdateReq.setStatusSetError A.PK "ERROR" msgA) = .ok ())
    (hBcb : truthyStr B.capacity_block_id = true)
    (hBwin : jsLt now (setDatePlus (B.end_time.getD none)
              (B.extension_lookahead_days.map (fun d => -d))) = false)
    (hBgo : B.require_approval = false ∨ B.approval = true)
    (offers : List String)
    (hBdesc : env.describe (B.capacity_block_id.getD "")
              (B.extend_by_days.map (· * 24)) = .ok offers)
    (hBne : offers ≠ [])
    (hBpur : env.purchase (B.capacity_block_id.getD "") (offers.headD "") = .ok ())
    (e d : Int) (hBet2 : B.end_time = some (some e)) (hBd : B.extend_by_days = some d)
    (hBupd : env.update (UpdateReq.extendedWrite B.PK (e + d * dayMs)) = .ok ()) :
    (runLoop env now [A, B]).2 = none ∧
    applyActions env (runLoop env now [A, B]).1 B
      = { B with status := some "EXTENDED", end_time := some (some (e + d * dayMs)),
                 approval := false, errorMessage := none } ∧
    applyActions env (runLoop env now [A, B]).1 A
      = { A with status := some "ERROR", errorMessage := some msgA } := by
  have hreq : updateStatusReq A.PK "ERROR" (some msgA)
      = .setStatusSetError A.PK "ERROR" msgA := updateStatusReq_msg _ _ _ hmsgA
  have hA : processItem env now A
      = ([Action.describeOfferings (A.capacity_block_id.getD "")
            (A.extend_by_days.map (· * 24)),
          Action.updateItem (UpdateReq.setStatusSetError A.PK "ERROR" msgA)], none) := by
    have h0 := processItem_of_err env now A _ msgA
      (tryBody_describeFail env now A hAcb hAet hAwin hAgo msgA hAdesc)
      (by rw [hreq]; exact hAupd)
    rw [hreq] at h0
    simpa using h0
  have hB : processItem env now B
      = ([Action.describeOfferings (B.capacity_block_id.getD "")
            (B.extend_by_days.map (· * 24)),
          Action.purchase (B.capacity_block_id.getD "") (offers.headD ""),
          Action.updateItem (UpdateReq.extendedWrite B.PK (e + d * dayMs))], none) :=
    processItem_of_ok env now B _
      (tryBody_extendOk env now B hBcb hBwin hBgo offers hBdesc hBne hBpur e d hBet2 hBd hBupd)
  have hrun : runLoop env now [A, B]
      = ([Action.describeOfferings (A.capacity_block_id.getD "")
            (A.extend_by_days.map (· * 24)),
          Action.updateItem (UpdateReq.setStatusSetError A.PK "ERROR" msgA),
          Action.describeOfferings (B.capacity_block_id.getD "")
            (B.extend_by_days.map (· * 24)),
          Action.purchase (B.capacity_block_id.getD "") (offers.headD ""),
          Action.updateItem (UpdateReq.extendedWrite B.PK (e + d * dayMs))], none) := by
    simp [runLoop, hA, hB]
  refine ⟨by rw [hrun], ?_, ?_⟩
  · rw [hrun]
    rw [applyActions_describe, applyActions_updateOk env _ _ _ hAupd,
      applyUpdate_other _ _ (by simpa [UpdateReq.key] using hPK),
      applyActions_describe, applyActions_purchase,
      applyActions_updateOk env _ _ _ hBupd, applyActions_nil,
      applyUpdate_extendedWrite_self]
  · rw [hrun]
    rw [applyActions_describe, applyActions_updateOk env _ _ _ hAupd,
      applyUpdate_setStatusSetError_self,
      applyActions_describe, applyActions_purchase,
      applyActions_updateOk env _ _ _ hBupd, applyActions_nil,
      applyUpdate_other _ _ (by simpa [UpdateReq.key] using Ne.symm hPK)]

/-- `envC7` with a store that accepts every write. -/
def envC7ok : Env := { envC7 with update := fun _ => .ok () }

/-- Witness for C7's amended theorem: A's provider fails, its `ERROR`
write is accepted, and B still reaches `EXTENDED` in the same batch. -/
theorem provider_failure_isolated_witness :
    (runLoop envC7ok (some (996 * dayMs)) [itemA, itemB]).2 = none ∧
    applyActions envC7ok (runLoop envC7ok (some (996 * dayMs)) [itemA, itemB]).1 itemB
      = { itemB with status := some "EXTENDED",
                     end_time := some (some (1000 * dayMs + 30 * dayMs)),
                     approval := false, errorMessage := none } ∧
    applyActions envC7ok (runLoop envC7ok (some (996 * dayMs)) [itemA, itemB]).1 itemA
      = { itemA with status := some "ERROR", errorMessage := some "provider down" } :=
  provider_failure_isolated_when_error_write_accepted envC7ok (some (996 * dayMs))
    itemA itemB (by decide) (by decide) (by decide) (by decide) (Or.inl rfl)
    "provider down" (by decide) rfl rfl (by decide) (by decide) (Or.inl rfl)
    ["off-1"] rfl (by decide) rfl (1000 * dayMs) 30 rfl rfl rfl

end CBM

namespace CBM

/-! ### C10: invalid threshold falls through -/

theorem setDatePlus_none_right (x : JSDate) : setDatePlus x none = none := by
  cases x <;> rfl

theorem setDatePlus_none_left (y : Option Int) : setDatePlus none y = none := by
  cases y <;> rfl

theorem jsLt_none_right (now : JSDate) : jsLt now none = false := by
  cases now <;> rfl

/-- The loop iteration's trace is the try-block trace, possibly followed
by the catch block's `ERROR` write. -/
theorem processItem_actions (env : Env) (now : JSDate) (item : Item) :
    (processItem env now item).1 = (tryBody env now item).1 ∨
    ∃ msg, (tryBody env now item).2 = some msg ∧
      (processItem env now item).1
        = (tryBody env now item).1
          ++ [Action.updateItem (updateStatusReq item.PK "ERROR" (some msg))] := by
  unfold processItem
  rcases htb : tryBody env now item with ⟨acts, tag⟩
  cases tag with
  | none => left; simp [htb]
  | some msg =>
      right
      refine ⟨msg, by simp, ?_⟩
      cases henv : env.update (updateStatusReq item.PK "ERROR" (some msg)) <;> simp [henv]

/-- Once the window comparison is false, no branch ever writes
`NO_ACTION_REQUIRED`. -/
theorem tryBody_no_noaction_write (env : Env) (now : JSDate) (item : Item)
    (hwin : jsLt now (setDatePlus (item.end_time.getD none)
              (item.extension_lookahead_days.map (fun d => -d))) = false) :
    ∀ pk, Action.updateItem (UpdateReq.setStatusRemoveError pk "NO_ACTION_REQUIRED")
        ∉ (tryBody env now item).1 := by
  intro pk hmem
  simp only [tryBody] at hmem
  rw [hwin] at hmem
  rcases harn : env.approvalTopicArn with _ | arn <;>
    simp only [sendApprovalRequest, harn] at hmem <;>
    (repeat' split at hmem) <;>
    simp_all [updateStatusReq, truthyStr]

end CBM

namespace CBM

/-- **C10**: validation rejects only records with a falsy
`capacity_block_id` or `end_time`; for a record that passes validation
but lacks `extension_lookahead_days` (or whose `end_time` does not parse
as a date), the computed lookahead threshold is an Invalid Date, the
comparison `now < threshold` is false, and the record is never
classified `NO_ACTION_REQUIRED` — each cycle falls through to the
approval branch (if approval is required and not granted) or to the
extension branch, instead of being reported as a validation error. -/
theorem invalid_threshold_falls_through
    (env : Env) (now : JSDate) (item : Item)
    (hcb : truthyStr item.capacity_block_id = true)
    (het : item.end_time.isSome = true)
    (hbad : item.extension_lookahead_days = none ∨ item.end_time = some none) :
    setDatePlus (item.end_time.getD none)
        (item.extension_lookahead_days.map (fun d => -d)) = none ∧
    jsLt now (setDatePlus (item.end_time.getD none)
        (item.extension_lookahead_days.map (fun d => -d))) = false ∧
    (∀ pk, Action.updateItem (UpdateReq.setStatusRemoveError pk "NO_ACTION_REQUIRED")
        ∉ (processItem env now item).1) ∧
    (item.require_approval = true ∧ item.approval = false →
      (tryBody env now item).1.head?
        = some (Action.updateItem
            (UpdateReq.setStatusRemoveError item.PK "EXTENSION_APPROVAL_REQUIRED"))) ∧
    ((item.require_approval = true → item.approval = true) →
      (tryBody env now item).1.head?
        = some (Action.describeOfferings (item.capacity_block_id.getD "")
            (item.extend_by_days.map (· * 24)))) := by
  have hlook : setDatePlus (item.end_time.getD none)
      (item.extension_lookahead_days.map (fun d => -d)) = none := by
    rcases hbad with h | h
    · simp [h, setDatePlus_none_right]
    · simp [h, setDatePlus_none_left]
  have hwin : jsLt now (setDatePlus (item.end_time.getD none)
      (item.extension_lookahead_days.map (fun d => -d))) = false := by
    rw [hlook]; exact jsLt_none_right now
  refine ⟨hlook, hwin, ?_, ?_, ?_⟩
  · intro pk
    rcases processItem_actions env now item with hpa | ⟨msg, htag, hpa⟩
    · rw [hpa]
      exact tryBody_no_noaction_write env now item hwin pk
    · rw [hpa]
      intro hmem
      rcases List.mem_append.mp hmem with h | h
      · exact tryBody_no_noaction_write env now item hwin pk h
      · simp only [List.mem_singleton] at h
        by_cases ht : truthyStr (some msg) = true <;>
          simp_all [updateStatusReq]
  · rintro ⟨hra, hap⟩
    simp only [tryBody]
    rw [if_neg (by simp [hcb, het])]
    rw [hwin]
    simp only [Bool.false_eq_true, if_false]
    rw [if_pos (by simp [hra, hap])]
    cases h1 : env.update (updateStatusReq item.PK "EXTENSION_APPROVAL_REQUIRED" none)
    · simp [updateStatusReq, truthyStr]
    · repeat' split
      all_goals simp [updateStatusReq, truthyStr]
  · intro himp
    simp only [tryBody]
    rw [if_neg (by simp [hcb, het])]
    rw [hwin]
    simp only [Bool.false_eq_true, if_false]
    rw [if_neg (fun hc => hc.2 (himp hc.1))]
    cases h1 : env.describe (item.capacity_block_id.getD "")
        (item.extend_by_days.map (· * 24))
    · simp
    · repeat' split
      all_goals simp

/-- Witness for C10: the base record without `extension_lookahead_days`,
evaluated well before what would have been the window, still goes
straight to the extension branch. -/
theorem invalid_threshold_falls_through_witness :
    setDatePlus (({ baseItem with extension_lookahead_days := none } : Item).end_time.getD none)
        (({ baseItem with extension_lookahead_days := none } : Item).extension_lookahead_days.map
          (fun d => -d)) = none ∧
    jsLt (some (500 * dayMs))
        (setDatePlus (({ baseItem with extension_lookahead_days := none } : Item).end_time.getD none)
          (({ baseItem with extension_lookahead_days := none } : Item).extension_lookahead_days.map
            (fun d => -d))) = false ∧
    (∀ pk, Action.updateItem (UpdateReq.setStatusRemoveError pk "NO_ACTION_REQUIRED")
        ∉ (processItem envOk (some (500 * dayMs))
            { baseItem with extension_lookahead_days := none }).1) ∧
    (({ baseItem with extension_lookahead_days := none } : Item).require_approval = true ∧
        ({ baseItem with extension_lookahead_days := none } : Item).approval = false →
      (tryBody envOk (some (500 * dayMs)) { baseItem with extension_lookahead_days := none }).1.head?
        = some (Action.updateItem
            (UpdateReq.setStatusRemoveError "rec-1" "EXTENSION_APPROVAL_REQUIRED"))) ∧
    ((({ baseItem with extension_lookahead_days := none } : Item).require_approval = true →
        ({ baseItem with extension_lookahead_days := none } : Item).approval = true) →
      (tryBody envOk (some (500 * dayMs)) { baseItem with extension_lookahead_days := none }).1.head?
        = some (Action.describeOfferings "cb-1" (some 720))) :=
  invalid_threshold_falls_through envOk (some (500 * dayMs))
    { baseItem with extension_lookahead_days := none }
    (by decide) (by decide) (Or.inl rfl)

end CBM
